import Mathlib

/-!
Shallow embedding of the Georgia Fantasy 5 prediction engine
(`ps_index.py`, class `GeorgiaFantasy5Predictor`) together with proofs
about its combination filter, statistics, ranking, scoring and
prediction-generation logic.

Conventions of the embedding:
* Python lists of draw numbers become `List Nat`; the draw history is a
  `List (List Nat)`, most recent draw first (mirroring the
  `ORDER BY date DESC` load).
* Python `int` arithmetic is `Nat` arithmetic (all quantities involved are
  non-negative); float arithmetic is modelled exactly over `ℚ`.
* Code that can raise a runtime exception (`IndexError` from `dup_counts[0]`,
  `ZeroDivisionError` from `i // group_size`, a too-small sampling pool for
  `np.random.choice(..., replace=False)`) is modelled with `Option`:
  `none` is the raised exception.
* `np.random.choice` is modelled by an injectable stream of index choices
  `σ : Nat → Nat`; every sequence of actual random draws corresponds to some
  such stream, so universally quantified theorems cover every random outcome.
-/

namespace Fantasy5

/-- The working number universe: `self.num_range = range(1, 43)`, i.e. 1..42
(the source comment says 1-39, but the executable range is 1-42). -/
def numRange : List Nat := List.range' 1 42

/-- `self.nums_per_draw = 5`. -/
def nums_per_draw : Nat := 5

/-- Python `sorted` on naturals: ascending stable sort.  On a list of
naturals every stable ascending sort agrees with insertion sort. -/
def pySorted (numbers : List Nat) : List Nat :=
  List.insertionSort (fun a b => a ≤ b) numbers

/-- Adjacent pairs at distance one in an (already sorted) list: the
`seq2` loop of `count_sequential_numbers`.  Python tests
`sorted_nums[i+1] - sorted_nums[i] == 1`, which on an ascending list is
`b = a + 1`. -/
def seq2Aux : List Nat → Nat
  | a :: b :: rest => (if b = a + 1 then 1 else 0) + seq2Aux (b :: rest)
  | _ => 0

/-- Adjacent triples forming a run of three: the `seq3` loop of
`count_sequential_numbers`. -/
def seq3Aux : List Nat → Nat
  | a :: b :: c :: rest => (if b = a + 1 ∧ c = b + 1 then 1 else 0) + seq3Aux (b :: c :: rest)
  | _ => 0

/-- `count_sequential_numbers(numbers)`: sorts the numbers and counts
length-2 and length-3 consecutive runs. -/
def count_sequential_numbers (numbers : List Nat) : Nat × Nat :=
  let sorted_nums := pySorted numbers
  (seq2Aux sorted_nums, seq3Aux sorted_nums)

/-- `calculate_modular_total(numbers)`: buckets by `value mod 10`;
`mod_total = Σ max(0, count-1)` (natural subtraction is exactly
`max 0 (count-1)`), `mod_x` = number of buckets with more than 2 members. -/
def calculate_modular_total (numbers : List Nat) : Nat × Nat :=
  let modCount : Nat → Nat := fun d => numbers.countP (fun x => x % 10 = d)
  (((List.range 10).map (fun d => modCount d - 1)).sum,
   ((List.range 10).filter (fun d => 2 < modCount d)).length)

/-- `calculate_decade_distribution(numbers)`: occupancy of the five bands
1-9, 10-19, 20-29, 30-39 and the final `else` band (40 and above, and 0,
for a natural-number input). -/
def calculate_decade_distribution (numbers : List Nat) : Nat × Nat × Nat × Nat × Nat :=
  ( numbers.countP (fun n => 1 ≤ n ∧ n ≤ 9)
  , numbers.countP (fun n => 10 ≤ n ∧ n ≤ 19)
  , numbers.countP (fun n => 20 ≤ n ∧ n ≤ 29)
  , numbers.countP (fun n => 30 ≤ n ∧ n ≤ 39)
  , numbers.countP (fun n => n = 0 ∨ 40 ≤ n) )

/-- `len(set(xs).intersection(set(ys)))`: the number of distinct values of
`xs` that also occur in `ys`. -/
def setIntersectionSize (xs ys : List Nat) : Nat :=
  (xs.dedup.filter (fun x => x ∈ ys)).length

/-- `get_last_n_draws(n)`: `head(n)` of the most-recent-first history. -/
def get_last_n_draws (hist : List (List Nat)) (n : Nat) : List (List Nat) :=
  hist.take n

/-- `calculate_duplicates_from_previous(numbers, max_draws=10)`.
`dup_counts` has one entry per actually available draw (at most 10);
`cumulative_dups` always has 10 entries, the `i`-th using the union of the
first `i` available draws (the Python inner loop guards `j < len(last_draws)`,
so short histories contribute what they have). -/
def calculate_duplicates_from_previous (hist : List (List Nat)) (numbers : List Nat) :
    List Nat × List Nat :=
  let last_draws := get_last_n_draws hist 10
  let dup_counts := last_draws.map (fun draw => setIntersectionSize numbers draw)
  let cumulative_dups := (List.range' 1 10).map
    (fun i => setIntersectionSize numbers (last_draws.take i).flatten)
  (dup_counts, cumulative_dups)

/-- `filter_combination(combination)` with the source's hard-coded default
thresholds (maxSeq2 = 1, maxSeq3 = 0, maxModTotal = 2, maxModX = 0,
maxPerDecade = 2, maxOverlap1 = 1, maxOverlap2 = 2, maxOverlap3 = 3,
sum range [80, 120]).  `none` models the `IndexError` raised by
`dup_counts[0]` when the history is empty; `cumulative_dups` always has 10
entries, so indices 1 and 2 into it are total (`getD` never takes its
default on the real list). -/
def even_count (combination : List Nat) : Nat :=
  combination.countP (fun n => n % 2 = 0)

/-- `odd_count = self.nums_per_draw - even_count`. -/
def odd_count (combination : List Nat) : Nat :=
  nums_per_draw - even_count combination

def filter_combination (hist : List (List Nat)) (combination : List Nat) : Option Bool :=
  if combination.length ≠ nums_per_draw then some false
  else if ¬(2 ≤ even_count combination ∧ even_count combination ≤ 3 ∧
      2 ≤ odd_count combination ∧ odd_count combination ≤ 3) then some false
  else if 1 < (count_sequential_numbers combination).1 ∨
      0 < (count_sequential_numbers combination).2 then some false
  else if 2 < (calculate_modular_total combination).1 ∨
      0 < (calculate_modular_total combination).2 then some false
  else if 2 < (calculate_decade_distribution combination).1 ∨
      2 < (calculate_decade_distribution combination).2.1 ∨
      2 < (calculate_decade_distribution combination).2.2.1 ∨
      2 < (calculate_decade_distribution combination).2.2.2.1 ∨
      2 < (calculate_decade_distribution combination).2.2.2.2 then some false
  else
    ((calculate_duplicates_from_previous hist combination).1.get? 0).bind fun dc0 =>
      if 1 < dc0 then some false
      else if 2 < (calculate_duplicates_from_previous hist combination).2.getD 1 0 then
        some false
      else if 3 < (calculate_duplicates_from_previous hist combination).2.getD 2 0 then
        some false
      else if ¬(80 ≤ combination.sum ∧ combination.sum ≤ 120) then some false
      else some true

set_option maxHeartbeats 1000000 in
/-- C1: every 5-number combination accepted by the filter under the default
configuration (sum range [80,120], per-decade cap 2) has even-count in
{2,3}, sum within [80,120] inclusive, and at most 2 members in every decade
band. -/
theorem c1_accepted_combinations_balanced (hist : List (List Nat)) (combination : List Nat)
    (h : filter_combination hist combination = some true) :
    (even_count combination = 2 ∨ even_count combination = 3) ∧
    (80 ≤ combination.sum ∧ combination.sum ≤ 120) ∧
    ((calculate_decade_distribution combination).1 ≤ 2 ∧
      (calculate_decade_distribution combination).2.1 ≤ 2 ∧
      (calculate_decade_distribution combination).2.2.1 ≤ 2 ∧
      (calculate_decade_distribution combination).2.2.2.1 ≤ 2 ∧
      (calculate_decade_distribution combination).2.2.2.2 ≤ 2) := by
  unfold filter_combination at h
  split_ifs at h with h1 h2 h3 h4 h5 h6 h7 h8 <;>
    try simp [Option.bind_eq_some] at h
  unfold odd_count nums_per_draw at h2
  exact ⟨by omega, by omega, by omega⟩

/-- C1 witness: the filter accepts `[5,16,24,33,40]` against the history
`[[3,14,22,30,41]]`, and the balance properties hold there. -/
theorem c1_witness :
    ((even_count [5,16,24,33,40] = 2 ∨ even_count [5,16,24,33,40] = 3) ∧
    (80 ≤ ([5,16,24,33,40] : List Nat).sum ∧ ([5,16,24,33,40] : List Nat).sum ≤ 120) ∧
    ((calculate_decade_distribution [5,16,24,33,40]).1 ≤ 2 ∧
      (calculate_decade_distribution [5,16,24,33,40]).2.1 ≤ 2 ∧
      (calculate_decade_distribution [5,16,24,33,40]).2.2.1 ≤ 2 ∧
      (calculate_decade_distribution [5,16,24,33,40]).2.2.2.1 ≤ 2 ∧
      (calculate_decade_distribution [5,16,24,33,40]).2.2.2.2 ≤ 2)) :=
  c1_accepted_combinations_balanced [[3,14,22,30,41]] [5,16,24,33,40] (by decide)

/-- C3: with an empty history the overlap computation is *not* well-defined:
`dup_counts` is empty and `dup_counts[0]` raises `IndexError` (modelled as
`none`), even though the cumulative overlap lists do degrade to all zeros. -/
theorem c3_empty_history_overlap_error :
    filter_combination [] [5,16,24,33,40] = none ∧
    (calculate_duplicates_from_previous [] [5,16,24,33,40]).1 = [] ∧
    (calculate_duplicates_from_previous [] [5,16,24,33,40]).2 = List.replicate 10 0 := by
  decide

/-- C5 counterexample: a malformed combination is not signalled as an
`InvalidCombination` condition.  A 4-element combination is treated as an
ordinary filter rejection (`some false`, not an error), and a 5-element
combination with a repeated value is silently accepted. -/
theorem c5_counterexample :
    filter_combination [[1,2,3,4,5]] [1,2,3,4] = some false ∧
    filter_combination [[1,2,3,4,5]] [12,12,23,31,40] = some true := by
  decide

/-- C5 amended: a combination whose length is not 5 is treated as an ordinary
filter rejection (the filter returns `False`); duplicate or out-of-range
values inside a 5-element combination are not detected at all, and no
`InvalidCombination` condition exists in the code. -/
theorem c5_amended_malformed_is_ordinary_rejection (hist : List (List Nat))
    (combination : List Nat) (h : combination.length ≠ 5) :
    filter_combination hist combination = some false := by
  unfold filter_combination
  simp [nums_per_draw, h]

/-- C5 witness: the 4-element combination `[1,2,3,4]` is rejected with an
ordinary `False`. -/
theorem c5_witness :
    filter_combination [[1,2,3,4,5]] [1,2,3,4] = some false :=
  c5_amended_malformed_is_ordinary_rejection [[1,2,3,4,5]] [1,2,3,4] (by decide)

/-- C6: with history `[[3,14,22,30,41]]` and the default configuration, the
filter rejects `[3,14,22,30,41]` (its overlap with the most recent draw is
5 > 1) and accepts `[5,16,24,33,40]`. -/
theorem c6_scenario_reject_and_accept :
    filter_combination [[3,14,22,30,41]] [3,14,22,30,41] = some false ∧
    (calculate_duplicates_from_previous [[3,14,22,30,41]] [3,14,22,30,41]).1.getD 0 0 = 5 ∧
    filter_combination [[3,14,22,30,41]] [5,16,24,33,40] = some true := by
  decide

/-- Record of the rational-valued statistics computed by `calculate_stats`.
The two real-valued entries of the Python dict (`stdev = sqrt(variance)` and
`geomean = exp(mean(log x))`) are irrational in general; they are modelled by
the separate real-valued functions `stdev` and `geomean` below, while this
record keeps the exactly representable fields.  `skew` and `kurt` are the
source's always-zero placeholder entries. -/
structure CombinationStats where
  mean : ℚ
  median : ℚ
  harmean : ℚ
  quart1 : ℚ
  quart2 : ℚ
  quart3 : ℚ
  variance : ℚ
  avedev : ℚ
  skew : ℚ
  kurt : ℚ
deriving DecidableEq

/-- `calculate_stats(numbers)` over exact rationals.
`median` is `np.median` (midpoint of the two central order statistics, which
for odd length is the middle value); the quartiles are the source's
adjacent-pair midpoints of the sorted list, guarded by `len >= 4`;
`variance`/`avedev` use the population divisor `len`.  `harmean` follows
numpy semantics: a zero value makes `1.0/x` infinite and the quotient `0.0`
(a zero never occurs for universe members). -/
def calculate_stats (numbers : List Nat) : CombinationStats :=
  let n : ℚ := numbers.length
  let vals : List ℚ := numbers.map (fun x => (x : ℚ))
  let mean : ℚ := vals.sum / n
  let s := pySorted numbers
  let median : ℚ := (((s.getD ((numbers.length - 1) / 2) 0 : Nat) : ℚ) +
    ((s.getD (numbers.length / 2) 0 : Nat) : ℚ)) / 2
  let harmean : ℚ := if numbers.any (fun x => x = 0) then 0
    else n / (vals.map (fun x => 1 / x)).sum
  let quart1 : ℚ := if 4 ≤ numbers.length then
    (((s.getD 0 0 : Nat) : ℚ) + ((s.getD 1 0 : Nat) : ℚ)) / 2 else 0
  let quart2 : ℚ := if 4 ≤ numbers.length then
    (((s.getD 1 0 : Nat) : ℚ) + ((s.getD 2 0 : Nat) : ℚ)) / 2 else 0
  let quart3 : ℚ := if 4 ≤ numbers.length then
    (((s.getD 2 0 : Nat) : ℚ) + ((s.getD 3 0 : Nat) : ℚ)) / 2 else 0
  let variance : ℚ := (vals.map (fun x => (x - mean) ^ 2)).sum / n
  let avedev : ℚ := (vals.map (fun x => |x - mean|)).sum / n
  { mean := mean, median := median, harmean := harmean,
    quart1 := quart1, quart2 := quart2, quart3 := quart3,
    variance := variance, avedev := avedev, skew := 0, kurt := 0 }

/-- `np.std`: the square root of the population variance (real-valued). -/
noncomputable def stdev (numbers : List Nat) : ℝ :=
  Real.sqrt ((calculate_stats numbers).variance : ℚ)

/-- `geomean = np.exp(np.mean(np.log(x)))` (real-valued). -/
noncomputable def geomean (numbers : List Nat) : ℝ :=
  Real.exp ((numbers.map (fun x => Real.log x)).sum / numbers.length)

/-- C10: `stats([1,2,3,4,5])` yields mean 3, median 3, quart1 1.5, quart2 2.5,
quart3 3.5, variance 2 (population definition, divisor 5), avedev 1.2, and
standard deviation √2; the three quartile values are the adjacent-pair
midpoints of the sorted sequence. -/
theorem c10_stats_of_one_to_five :
    (calculate_stats [1,2,3,4,5]).mean = 3 ∧
    (calculate_stats [1,2,3,4,5]).median = 3 ∧
    (calculate_stats [1,2,3,4,5]).quart1 = 3/2 ∧
    (calculate_stats [1,2,3,4,5]).quart2 = 5/2 ∧
    (calculate_stats [1,2,3,4,5]).quart3 = 7/2 ∧
    (calculate_stats [1,2,3,4,5]).variance = 2 ∧
    (calculate_stats [1,2,3,4,5]).avedev = 6/5 ∧
    stdev [1,2,3,4,5] = Real.sqrt 2 := by
  have hs : pySorted [1,2,3,4,5] = [1,2,3,4,5] := by decide
  have hv : (calculate_stats [1,2,3,4,5]).variance = 2 := by
    simp [calculate_stats, hs, List.getD] <;> norm_num
  refine ⟨?_, ?_, ?_, ?_, ?_, hv, ?_, ?_⟩
  · simp [calculate_stats, hs, List.getD] <;> norm_num
  · simp [calculate_stats, hs, List.getD] <;> norm_num
  · simp [calculate_stats, hs, List.getD] <;> norm_num
  · simp [calculate_stats, hs, List.getD] <;> norm_num
  · simp [calculate_stats, hs, List.getD] <;> norm_num
  · simp [calculate_stats, hs, List.getD] <;> norm_num [abs_eq_max_neg, max_def]
  · rw [stdev, hv]
    norm_num

/-- The composite score `_calculate_score(combination, stats, ranks)` over
exact rationals.  The float literal `3.33` is the exact decimal `333/100`;
the weights are 0.35/0.25/0.15/0.25.  The `stats` argument is accepted but
never used, exactly as in the source.  `ranks` is the rank-dictionary
lookup. -/
def calculate_score (combination : List Nat) (stats : CombinationStats)
    (ranks : Nat → Nat) : ℚ :=
  let rank_score : ℚ := ((combination.map ranks).sum : Nat)
  let norm_rank_score : ℚ := 100 - rank_score / (6 * (nums_per_draw : ℚ)) * 100
  let avg_sum : ℚ := 100
  let sum_score : ℚ := 100 - min |(combination.sum : ℚ) - avg_sum| 30 * (333/100)
  let eo_balance_score : ℚ :=
    100 - |(even_count combination : ℚ) - (nums_per_draw : ℚ) / 2| * 20
  let d := calculate_decade_distribution combination
  let decade_score : ℚ := 80 -
    (if 3 < d.1 ∨ 3 < d.2.1 ∨ 3 < d.2.2.1 ∨ 3 < d.2.2.2.1 ∨ 3 < d.2.2.2.2
      then 20 else 0) -
    (if d.1 = 0 ∨ d.2.1 = 0 ∨ d.2.2.1 = 0 ∨ d.2.2.2.1 = 0 ∨ d.2.2.2.2 = 0
      then 20 else 0)
  norm_rank_score * (35/100) + sum_score * (25/100) + eo_balance_score * (15/100) +
    decade_score * (25/100)

/-- Rank sub-score exactly as the spec phrases it: `100 − rankSum/30·100`. -/
def rankScoreSpec (combination : List Nat) (ranks : Nat → Nat) : ℚ :=
  100 - (((combination.map ranks).sum : Nat) : ℚ) / 30 * 100

/-- Sum sub-score exactly as the spec phrases it:
`100 − min(|sum − 100|, 30)·3.33`. -/
def sumScoreSpec (combination : List Nat) : ℚ :=
  100 - min |(combination.sum : ℚ) - 100| 30 * (333/100)

/-- Even/odd sub-score exactly as the spec phrases it:
`100 − |evenCount − 2.5|·20`. -/
def evenOddScoreSpec (combination : List Nat) : ℚ :=
  100 - |(even_count combination : ℚ) - 5/2| * 20

/-- Decade sub-score exactly as the spec phrases it: starts at 80, minus 20
if some decade band holds more than 3 numbers, minus a further independent 20
if some decade band holds zero numbers. -/
def decadeScoreSpec (combination : List Nat) : ℚ :=
  80 -
    (if 3 < (calculate_decade_distribution combination).1 ∨
        3 < (calculate_decade_distribution combination).2.1 ∨
        3 < (calculate_decade_distribution combination).2.2.1 ∨
        3 < (calculate_decade_distribution combination).2.2.2.1 ∨
        3 < (calculate_decade_distribution combination).2.2.2.2
      then 20 else 0) -
    (if (calculate_decade_distribution combination).1 = 0 ∨
        (calculate_decade_distribution combination).2.1 = 0 ∨
        (calculate_decade_distribution combination).2.2.1 = 0 ∨
        (calculate_decade_distribution combination).2.2.2.1 = 0 ∨
        (calculate_decade_distribution combination).2.2.2.2 = 0
      then 20 else 0)

/-- C9: for every valid 5-number combination with per-number ranks in [0,6],
the composite score is the weighted sum
`0.35·rankScore + 0.25·sumScore + 0.15·evenOddScore + 0.25·decadeScore`
of the four sub-scores as the spec states them. -/
theorem c9_composite_score_formula (combination : List Nat)
    (stats : CombinationStats) (ranks : Nat → Nat)
    (hlen : combination.length = 5) (hnd : combination.Nodup)
    (hrange : ∀ n ∈ combination, 1 ≤ n ∧ n ≤ 42)
    (hranks : ∀ n ∈ combination, ranks n ≤ 6) :
    calculate_score combination stats ranks =
      (35/100) * rankScoreSpec combination ranks +
      (25/100) * sumScoreSpec combination +
      (15/100) * evenOddScoreSpec combination +
      (25/100) * decadeScoreSpec combination := by
  unfold calculate_score rankScoreSpec sumScoreSpec evenOddScoreSpec decadeScoreSpec
    nums_per_draw
  push_cast
  ring

/-- C9 witness: the score formula instantiated at `[5,16,24,33,40]` with the
all-frequencies-equal rank table. -/
theorem c9_witness :
    calculate_score [5,16,24,33,40] (calculate_stats [5,16,24,33,40])
        (fun n => min ((n - 1) / 6) 6) =
      (35/100) * rankScoreSpec [5,16,24,33,40] (fun n => min ((n - 1) / 6) 6) +
      (25/100) * sumScoreSpec [5,16,24,33,40] +
      (15/100) * evenOddScoreSpec [5,16,24,33,40] +
      (25/100) * decadeScoreSpec [5,16,24,33,40] :=
  c9_composite_score_formula [5,16,24,33,40] (calculate_stats [5,16,24,33,40])
    (fun n => min ((n - 1) / 6) 6) (by decide) (by decide) (by decide) (by decide)

/-- The comparison used for Python's stable descending sort of dict items by
value (`sorted(items, key=lambda x: x[1], reverse=True)`): an element is
inserted before the first entry whose value is at most its own. -/
def freqGE (p q : Nat × Nat) : Prop := q.2 ≤ p.2

instance : DecidableRel freqGE := fun p q => Nat.decLe q.2 p.2

instance : IsTotal (Nat × Nat) freqGE :=
  ⟨fun p q => (Nat.le_total q.2 p.2).elim Or.inl Or.inr⟩

instance : IsTrans (Nat × Nat) freqGE :=
  ⟨fun _ _ _ h1 h2 => Nat.le_trans h2 h1⟩

/-- Stable descending sort of the (number, frequency) pairs: insertion sort
with `freqGE` computes exactly the stable sort Python's `sorted` with
`reverse=True` performs. -/
def sortByFreqDesc (items : List (Nat × Nat)) : List (Nat × Nat) :=
  List.insertionSort freqGE items

/-- `rank_numbers(frequency_dict)`: stable-sorts the items by descending
frequency, takes `group_size = len // 7`, and assigns
`rank = min(i // group_size, 6)` by sorted position.  `none` models the
`ZeroDivisionError` raised by `i // group_size` when `group_size` is zero
and the enumeration loop actually runs (an empty dict never enters the
loop and returns the empty assignment). -/
def rank_numbers (items : List (Nat × Nat)) : Option (List (Nat × Nat)) :=
  let sorted_nums := sortByFreqDesc items
  let group_size := sorted_nums.length / 7
  if sorted_nums.isEmpty then some []
  else if group_size = 0 then none
  else some (sorted_nums.enum.map (fun p => (p.2.1, min (p.1 / group_size) 6)))

/-- The frequency dict `{num: 0 for num in range(1, 43)}` after counting, as
an association list in Python insertion order 1..42. -/
def freqItems (f : Nat → Nat) : List (Nat × Nat) :=
  (List.range' 1 42).map (fun n => (n, f n))

/-- C4: on a universe with fewer than 7 numbers, `group_size` is 0 and rank
computation hits a division by zero (a `ZeroDivisionError`, modelled as
`none`) instead of assigning rank 6 to every number. -/
theorem c4_small_universe_division_by_zero :
    rank_numbers [(1,0),(2,0),(3,0),(4,0),(5,0),(6,0)] = none := by
  decide

/-- Strict priority order realised by the stable descending sort of an
ascending-keyed dict: strictly larger frequency first, ties broken by
strictly smaller number. -/
def freqLex (p q : Nat × Nat) : Prop :=
  q.2 < p.2 ∨ (p.2 = q.2 ∧ p.1 < q.1)

lemma pairwise_freqLex_orderedInsert (p : Nat × Nat) (l : List (Nat × Nat))
    (hl : List.Pairwise freqLex l) (hk : ∀ q ∈ l, p.1 < q.1) :
    List.Pairwise freqLex (List.orderedInsert freqGE p l) := by
  induction l with
  | nil => simp [freqLex]
  | cons b l ih =>
    rw [List.orderedInsert]
    split_ifs with hpb
    · rw [List.pairwise_cons]
      refine ⟨?_, hl⟩
      intro q hq
      rcases List.mem_cons.mp hq with rfl | hq
      · have hb := hk q (List.mem_cons_self _ _)
        unfold freqGE at hpb
        unfold freqLex
        omega
      · have hqb := List.rel_of_pairwise_cons hl hq
        have hq1 := hk q (List.mem_cons_of_mem _ hq)
        unfold freqGE at hpb
        unfold freqLex at hqb ⊢
        omega
    · rw [List.pairwise_cons]
      constructor
      · intro q hq
        rcases (List.mem_orderedInsert freqGE).mp hq with rfl | hq
        · unfold freqGE at hpb
          unfold freqLex
          omega
        · exact List.rel_of_pairwise_cons hl hq
      · exact ih hl.of_cons (fun q hq => hk q (List.mem_cons_of_mem _ hq))

lemma pairwise_freqLex_sort (l : List (Nat × Nat))
    (h : List.Pairwise (fun p q => p.1 < q.1) l) :
    List.Pairwise freqLex (sortByFreqDesc l) := by
  induction l with
  | nil => simp [sortByFreqDesc]
  | cons x xs ih =>
    have hperm := List.perm_insertionSort freqGE xs
    exact pairwise_freqLex_orderedInsert x _ (ih h.of_cons)
      (fun q hq => List.rel_of_pairwise_cons h (hperm.mem_iff.mp hq))

lemma freqItems_pairwise_keys (f : Nat → Nat) :
    List.Pairwise (fun p q : Nat × Nat => p.1 < q.1) (freqItems f) :=
  (List.pairwise_lt_range' 1 42).map _ (fun _ _ hab => hab)

lemma freqItems_length (f : Nat → Nat) : (freqItems f).length = 42 := by
  simp [freqItems]

lemma sort_freqItems_length (f : Nat → Nat) :
    (sortByFreqDesc (freqItems f)).length = 42 := by
  unfold sortByFreqDesc
  rw [(List.perm_insertionSort freqGE (freqItems f)).length_eq, freqItems_length]

lemma mem_sort_freqItems {f : Nat → Nat} {p : Nat × Nat}
    (hp : p ∈ sortByFreqDesc (freqItems f)) :
    p.2 = f p.1 ∧ 1 ≤ p.1 ∧ p.1 ≤ 42 := by
  have hmem : p ∈ freqItems f :=
    (List.perm_insertionSort freqGE (freqItems f)).mem_iff.mp hp
  obtain ⟨n, hn, rfl⟩ := List.mem_map.mp hmem
  rw [List.mem_range'] at hn
  obtain ⟨i, hi, rfl⟩ := hn
  exact ⟨rfl, by omega, by omega⟩

/-- The concrete rank assignment handed back by `rank_numbers` on the full
42-number dict. -/
def ranksList (f : Nat → Nat) : List (Nat × Nat) :=
  (sortByFreqDesc (freqItems f)).enum.map (fun p => (p.2.1, min (p.1 / 6) 6))

lemma rank_numbers_freqItems (f : Nat → Nat) :
    rank_numbers (freqItems f) = some (ranksList f) := by
  have hne : (sortByFreqDesc (freqItems f)).isEmpty = false := by
    cases hs : sortByFreqDesc (freqItems f) with
    | nil =>
      have h42 := sort_freqItems_length f
      rw [hs] at h42
      simp at h42
    | cons a l => simp
  simp only [rank_numbers, ranksList, sort_freqItems_length, hne]
  norm_num

lemma countP_rank_enumFrom (r : Nat) :
    ∀ (k : Nat) (s : List (Nat × Nat)),
      List.countP (fun ip => decide (min (ip.1 / 6) 6 = r)) (List.enumFrom k s) =
        List.countP (fun i => decide (min (i / 6) 6 = r)) (List.range' k s.length) := by
  intro k s
  induction s generalizing k with
  | nil => simp
  | cons a s ih => simp [List.enumFrom, List.range', List.countP_cons, ih]

lemma ranksList_count (f : Nat → Nat) (r : Nat) (hr : r ≤ 6) :
    ((ranksList f).filter (fun p => p.2 = r)).length = 6 := by
  unfold ranksList
  rw [← List.countP_eq_length_filter, List.countP_map]
  have hc : ((fun p : Nat × Nat => decide (p.2 = r)) ∘
      (fun p : Nat × (Nat × Nat) => (p.2.1, min (p.1 / 6) 6))) =
      fun ip : Nat × (Nat × Nat) => decide (min (ip.1 / 6) 6 = r) := rfl
  rw [hc]
  rw [show (sortByFreqDesc (freqItems f)).enum =
    List.enumFrom 0 (sortByFreqDesc (freqItems f)) from rfl]
  rw [countP_rank_enumFrom, sort_freqItems_length]
  interval_cases r <;> decide

lemma ranksList_tiebreak (f : Nat → Nat) (a b ra rb : Nat)
    (ha : (a, ra) ∈ ranksList f) (hb : (b, rb) ∈ ranksList f)
    (hf : f a = f b) (hab : a < b) : ra ≤ rb := by
  unfold ranksList at ha hb
  obtain ⟨⟨i, x⟩, hix, hax⟩ := List.mem_map.mp ha
  obtain ⟨⟨j, y⟩, hjy, hby⟩ := List.mem_map.mp hb
  injection hax with hxa hra
  injection hby with hyb hrb
  rw [List.mem_enum_iff_getElem?] at hix hjy
  obtain ⟨hi, hxi⟩ := List.getElem?_eq_some.mp hix
  obtain ⟨hj, hyj⟩ := List.getElem?_eq_some.mp hjy
  replace hi : i < (sortByFreqDesc (freqItems f)).length := hi
  replace hj : j < (sortByFreqDesc (freqItems f)).length := hj
  replace hxi : (sortByFreqDesc (freqItems f))[i] = x := hxi
  replace hyj : (sortByFreqDesc (freqItems f))[j] = y := hyj
  have hxmem : x ∈ sortByFreqDesc (freqItems f) := by
    rw [← hxi]
    exact List.getElem_mem hi
  have hymem : y ∈ sortByFreqDesc (freqItems f) := by
    rw [← hyj]
    exact List.getElem_mem hj
  have hx2 := (mem_sort_freqItems hxmem).1
  have hy2 := (mem_sort_freqItems hymem).1
  have hpl := pairwise_freqLex_sort (freqItems f) (freqItems_pairwise_keys f)
  rw [List.pairwise_iff_get] at hpl
  have hij : i < j := by
    rcases Nat.lt_trichotomy i j with h | h | h
    · exact h
    · exfalso
      subst h
      have hxy : x = y := by rw [← hxi, ← hyj]
      rw [hxy] at hxa
      omega
    · exfalso
      have hrel := hpl ⟨j, hj⟩ ⟨i, hi⟩ h
      simp only [List.get_eq_getElem] at hrel
      rw [hxi, hyj] at hrel
      unfold freqLex at hrel
      rw [hx2, hy2, hxa, hyb, hf] at hrel
      omega
  have hdiv : i / 6 ≤ j / 6 := Nat.div_le_div_right hij.le
  have hmin : min (i / 6) 6 ≤ min (j / 6) 6 := min_le_min hdiv le_rfl
  rw [← hra, ← hrb]
  exact hmin

lemma rank_numbers_congr (f g : Nat → Nat)
    (h : ∀ n, 1 ≤ n → n ≤ 42 → f n = g n) :
    rank_numbers (freqItems f) = rank_numbers (freqItems g) := by
  have heq : freqItems f = freqItems g := by
    unfold freqItems
    refine List.map_congr_left (fun n hn => ?_)
    rw [List.mem_range'] at hn
    obtain ⟨i, hi, rfl⟩ := hn
    rw [h _ (by omega) (by omega)]
  rw [heq]

set_option maxHeartbeats 1000000 in
/-- C8: on the 42-number universe, ranking any frequency table yields rank
groups 0..6 of exactly 6 numbers each (so exactly 7 groups whose sizes
differ by at most 1, and no rank exceeds 6); ties are broken by ascending
numeric value (equal frequencies give the smaller number a rank at most
that of the larger); and the computation is deterministic: any frequency
table agreeing on the universe produces the identical assignment. -/
theorem c8_rank_partition_tiebreak_determinism (f g : Nat → Nat)
    (r : Nat) (l : List (Nat × Nat))
    (hl : rank_numbers (freqItems f) = some l) (hr : r ≤ 6)
    (hfg : ∀ n, 1 ≤ n → n ≤ 42 → f n = g n) :
    ((l.filter (fun p => p.2 = r)).length = 6) ∧
    (∀ p ∈ l, p.2 ≤ 6) ∧
    rank_numbers (freqItems g) = some l ∧
    (∀ a b ra rb, (a, ra) ∈ l → (b, rb) ∈ l → f a = f b → a < b → ra ≤ rb) := by
  rw [rank_numbers_freqItems] at hl
  have hl' : l = ranksList f := (Option.some.inj hl).symm
  rw [hl']
  refine ⟨ranksList_count f r hr, ?_, ?_, ?_⟩
  · intro p hp
    obtain ⟨q, hq, hqe⟩ := List.mem_map.mp hp
    rw [← hqe]
    exact min_le_right _ 6
  · rw [← rank_numbers_congr f g hfg, rank_numbers_freqItems]
  · intro a b ra rb ha hb hfab hab
    exact ranksList_tiebreak f a b ra rb ha hb hfab hab

/-- The rank assignment of the all-zero frequency table, used as the C8
witness instance. -/
def ranksConst : List (Nat × Nat) :=
  (rank_numbers (freqItems (fun _ => 0))).getD []

/-- C8 witness: the partition, rank-bound, determinism and tie-break facts
instantiated at the all-zero frequency table and rank group 3. -/
theorem c8_witness :
    ((ranksConst.filter (fun p => p.2 = 3)).length = 6) ∧
    (∀ p ∈ ranksConst, p.2 ≤ 6) ∧
    rank_numbers (freqItems (fun _ => 0)) = some ranksConst ∧
    (∀ a b ra rb, (a, ra) ∈ ranksConst → (b, rb) ∈ ranksConst →
      (fun _ : Nat => (0 : Nat)) a = (fun _ : Nat => (0 : Nat)) b → a < b → ra ≤ rb) :=
  c8_rank_partition_tiebreak_determinism (fun _ => 0) (fun _ => 0) 3
    ranksConst (by decide) (by decide) (fun _ _ _ => rfl)

/-- One result record assembled by `generate_predictions`: the sorted
combination, its composite score, its sum and its statistics. -/
structure Prediction where
  combination : List Nat
  score : ℚ
  sum : Nat
  stats : CombinationStats
deriving DecidableEq

/-- `itertools.combinations(l, k)`: all k-element subsequences of `l`, in
the source's order (those containing the head of `l` first). -/
def combosOf : Nat → List Nat → List (List Nat)
  | 0, _ => [[]]
  | _ + 1, [] => []
  | k + 1, x :: xs => (combosOf k xs).map (fun c => x :: c) ++ combosOf (k + 1) xs

/-- Dictionary lookup `ranks[num]`.  Every key 1..42 is present in the dict
whenever it is read, so the `getD 0` default is never taken in a real run. -/
def rankOf (rl : List (Nat × Nat)) (n : Nat) : Nat :=
  (rl.lookup n).getD 0

/-- The comparison of `sorted(ranks.items(), key=lambda x: x[1])`: ascending
stable sort of dict items by value. -/
def rankLE (p q : Nat × Nat) : Prop := p.2 ≤ q.2

instance : DecidableRel rankLE := fun p q => Nat.decLe p.2 q.2

def sortBySndAsc (items : List (Nat × Nat)) : List (Nat × Nat) :=
  List.insertionSort rankLE items

/-- Build the result record of one surviving combination, exactly the dict
the source appends to `filtered_combinations`. -/
def mkPrediction (combo : List Nat) (ranksL : List (Nat × Nat)) : Prediction :=
  { combination := combo
  , score := calculate_score combo (calculate_stats combo) (rankOf ranksL)
  , sum := combo.sum
  , stats := calculate_stats combo }

/-- Phase A of `generate_predictions`: walk `combinations(most_frequent, 5)`
in order, keep each filter survivor, and stop once `count*2` survivors are
collected (the source checks the bound right after appending).  A filter
exception (empty history) aborts the whole run (`none`). -/
def phaseA (hist : List (List Nat)) (ranksL : List (Nat × Nat)) (target : Nat) :
    List (List Nat) → List Prediction → Option (List Prediction)
  | [], acc => some acc
  | c :: rest, acc =>
    match filter_combination hist (pySorted c) with
    | none => none
    | some false => phaseA hist ranksL target rest acc
    | some true =>
      if target ≤ (acc ++ [mkPrediction (pySorted c) ranksL]).length then
        some (acc ++ [mkPrediction (pySorted c) ranksL])
      else phaseA hist ranksL target rest (acc ++ [mkPrediction (pySorted c) ranksL])

/-- Draw `k` successive values without replacement (by position) from
`pool`, the positions chosen by the stream `σ` from counter `c` on.  The
caller guarantees `k ≤ pool.length`, so `% pool.length` always indexes a
real element; every outcome of `np.random.choice(pool, k, replace=False)`
is the result for some stream. -/
def sampleK (σ : Nat → Nat) : Nat → List Nat → Nat → List Nat
  | 0, _, _ => []
  | k + 1, pool, c =>
    pool.getD (σ c % pool.length) 0 ::
      sampleK σ k (pool.eraseIdx (σ c % pool.length)) (c + 1)

/-- Phase B of `generate_predictions`: weighted random sampling under the
10,000-attempt cap (`fuel` is the remaining attempts), with the duplicate
set `checked` and the survivor list `acc`.  A pool smaller than 5 makes
`np.random.choice(..., replace=False)` raise (`none`), and the filter's
empty-history exception propagates too. -/
def phaseB (hist : List (List Nat)) (ranksL : List (Nat × Nat)) (pool : List Nat)
    (σ : Nat → Nat) (target : Nat) :
    Nat → Nat → List (List Nat) → List Prediction → Option (List Prediction)
  | 0, _, _, acc => some acc
  | fuel + 1, c, checked, acc =>
    if target ≤ acc.length then some acc
    else if pool.length < 5 then none
    else if pySorted (sampleK σ 5 pool c) ∈ checked then
      phaseB hist ranksL pool σ target fuel (c + 5) checked acc
    else
      match filter_combination hist (pySorted (sampleK σ 5 pool c)) with
      | none => none
      | some false => phaseB hist ranksL pool σ target fuel (c + 5) checked acc
      | some true =>
        phaseB hist ranksL pool σ target fuel (c + 5)
          (pySorted (sampleK σ 5 pool c) :: checked)
          (acc ++ [mkPrediction (pySorted (sampleK σ 5 pool c)) ranksL])

/-- The comparison of the final
`sorted(filtered_combinations, key=score, reverse=True)`. -/
def scoreGE (p q : Prediction) : Prop := q.score ≤ p.score

instance : DecidableRel scoreGE :=
  fun p q => inferInstanceAs (Decidable (q.score ≤ p.score))

instance : IsTotal Prediction scoreGE := ⟨fun p q => le_total q.score p.score⟩

instance : IsTrans Prediction scoreGE := ⟨fun _ _ _ h1 h2 => le_trans h2 h1⟩

/-- Stable descending sort of the survivors by composite score. -/
def sortByScoreDesc (l : List Prediction) : List Prediction :=
  List.insertionSort scoreGE l

/-- `get_rank_frequency(days=30)`: occurrence count of each number over the
draws inside the window.  The window query itself belongs to the external
store, so the embedding takes the list of in-window draws as input; balls
outside 1..42 are skipped by the `if ball in freq` guard, and the table is
only ever read at keys 1..42. -/
def get_rank_frequency (recentDraws : List (List Nat)) : Nat → Nat :=
  fun n => recentDraws.flatten.countP (fun b => b = n)

/-- The Phase B sampling pool: `weights = {num: 1/(freq+1)}` and each number
contributes `int(weight * 10)` copies.  For these values the float
computation `int((1/(f+1)) * 10)` equals the integer quotient
`10 / (f + 1)` exactly. -/
def weightedPool (freq : Nat → Nat) : List Nat :=
  (List.range' 1 42).flatMap (fun n => List.replicate (10 / (freq n + 1)) n)

/-- `generate_predictions(count)`.  The full draw history `hist` and the
30-day window `recentDraws` come from the external store; `σ` is the
injected random index stream consumed by Phase B.  `none` models a
propagated exception (the filter's empty-history `IndexError`, the rank
table's `ZeroDivisionError`, or a sampling pool smaller than 5).
`most_frequent_nums` is the first 15 numbers of the rank dict stably
re-sorted by ascending rank, exactly `sorted(ranks.items(), key=rank)[:15]`
(the dict's insertion order is the descending-frequency order). -/
def generate_predictions (hist recentDraws : List (List Nat)) (count : Nat)
    (σ : Nat → Nat) : Option (List Prediction) :=
  let freq := get_rank_frequency recentDraws
  (rank_numbers (freqItems freq)).bind fun ranksL =>
    (phaseA hist ranksL (count * 2)
        (combosOf 5 (((sortBySndAsc ranksL).take 15).map (fun p => p.1))) []).bind
      fun accA =>
        (if accA.length < count then
          phaseB hist ranksL (weightedPool freq) σ (count * 2) 10000 0
            (accA.map (fun p => p.combination)) accA
        else some accA).map fun acc => (sortByScoreDesc acc).take count

/-- C7 (amended): the generator always terminates (Phase B is bounded by the
10,000-attempt cap built into its recursion); whenever it returns a result
list instead of propagating an exception, the list holds at most `count`
entries and is sorted descending by composite score. -/
theorem c7_amended_bounded_sorted_output (hist recentDraws : List (List Nat))
    (count : Nat) (σ : Nat → Nat) (l : List Prediction)
    (h : generate_predictions hist recentDraws count σ = some l) :
    l.length ≤ count ∧ l.Pairwise scoreGE := by
  unfold generate_predictions at h
  rw [Option.bind_eq_some] at h
  obtain ⟨ranksL, -, h⟩ := h
  rw [Option.bind_eq_some] at h
  obtain ⟨accA, -, h⟩ := h
  rw [Option.map_eq_some'] at h
  obtain ⟨acc, -, hl⟩ := h
  constructor
  · rw [← hl]
    exact List.length_take_le count _
  · rw [← hl]
    refine List.Pairwise.sublist (List.take_sublist _ _) ?_
    exact List.sorted_insertionSort scoreGE acc

/-- The structural shape of every combination the generator hands back:
5 members, weakly ascending (Python `sorted`), all from the universe. -/
def GoodCombo (c : List Nat) : Prop :=
  c.length = 5 ∧ c.Pairwise (fun a b => a ≤ b) ∧ ∀ x ∈ c, 1 ≤ x ∧ x ≤ 42

lemma pySorted_length (l : List Nat) : (pySorted l).length = l.length :=
  (List.perm_insertionSort (fun a b => a ≤ b) l).length_eq

lemma pySorted_sorted (l : List Nat) : (pySorted l).Pairwise (fun a b => a ≤ b) :=
  List.sorted_insertionSort (fun a b => a ≤ b) l

lemma pySorted_mem {l : List Nat} {x : Nat} (hx : x ∈ pySorted l) : x ∈ l :=
  (List.perm_insertionSort (fun a b => a ≤ b) l).mem_iff.mp hx

lemma combosOf_mem {k : Nat} {l : List Nat} {c : List Nat} (hc : c ∈ combosOf k l) :
    c.length = k ∧ ∀ x ∈ c, x ∈ l := by
  induction l generalizing k c with
  | nil =>
    cases k with
    | zero =>
      simp only [combosOf, List.mem_singleton] at hc
      subst hc
      simp
    | succ k => simp [combosOf] at hc
  | cons y ys ih =>
    cases k with
    | zero =>
      simp only [combosOf, List.mem_singleton] at hc
      subst hc
      simp
    | succ k =>
      rw [combosOf] at hc
      rcases List.mem_append.mp hc with h | h
      · obtain ⟨c', hc', rfl⟩ := List.mem_map.mp h
        obtain ⟨hlen, hmem⟩ := ih hc'
        refine ⟨by simp [hlen], ?_⟩
        intro x hx
        rcases List.mem_cons.mp hx with rfl | hx
        · exact List.mem_cons_self _ _
        · exact List.mem_cons_of_mem _ (hmem x hx)
      · obtain ⟨hlen, hmem⟩ := ih h
        exact ⟨hlen, fun x hx => List.mem_cons_of_mem _ (hmem x hx)⟩

lemma sampleK_length_mem (σ : Nat → Nat) :
    ∀ (k : Nat) (pool : List Nat) (c : Nat), k ≤ pool.length →
      (sampleK σ k pool c).length = k ∧ ∀ x ∈ sampleK σ k pool c, x ∈ pool := by
  intro k
  induction k with
  | zero =>
    intro pool c _
    simp [sampleK]
  | succ k ih =>
    intro pool c h
    rw [sampleK]
    have hpos : 0 < pool.length := by omega
    have hidx : σ c % pool.length < pool.length := Nat.mod_lt _ hpos
    have hget : pool.getD (σ c % pool.length) 0 ∈ pool := by
      rw [List.getD_eq_getElem?_getD, List.getElem?_eq_getElem hidx]
      exact List.getElem_mem hidx
    have herase : (pool.eraseIdx (σ c % pool.length)).length = pool.length - 1 := by
      rw [List.length_eraseIdx]
      simp [hidx]
    have hk : k ≤ (pool.eraseIdx (σ c % pool.length)).length := by omega
    obtain ⟨hl, hm⟩ := ih (pool.eraseIdx (σ c % pool.length)) (c + 1) hk
    refine ⟨by simp [hl], ?_⟩
    intro x hx
    rcases List.mem_cons.mp hx with rfl | hx
    · exact hget
    · exact (List.eraseIdx_sublist pool (σ c % pool.length)).mem (hm x hx)

lemma weightedPool_mem {freq : Nat → Nat} {x : Nat} (hx : x ∈ weightedPool freq) :
    1 ≤ x ∧ x ≤ 42 := by
  unfold weightedPool at hx
  rw [List.mem_flatMap] at hx
  obtain ⟨n, hn, hx⟩ := hx
  rw [List.eq_of_mem_replicate hx]
  rw [List.mem_range'] at hn
  obtain ⟨i, hi, rfl⟩ := hn
  omega

lemma ranksList_keys {f : Nat → Nat} {p : Nat × Nat} (hp : p ∈ ranksList f) :
    1 ≤ p.1 ∧ p.1 ≤ 42 := by
  unfold ranksList at hp
  obtain ⟨⟨i, x⟩, hix, hax⟩ := List.mem_map.mp hp
  rw [List.mem_enum_iff_getElem?] at hix
  obtain ⟨hi, hxi⟩ := List.getElem?_eq_some.mp hix
  replace hi : i < (sortByFreqDesc (freqItems f)).length := hi
  replace hxi : (sortByFreqDesc (freqItems f))[i] = x := hxi
  have hxmem : x ∈ sortByFreqDesc (freqItems f) := by
    rw [← hxi]
    exact List.getElem_mem hi
  have hx := mem_sort_freqItems hxmem
  rw [← hax]
  exact ⟨hx.2.1, hx.2.2⟩

lemma phaseA_good (hist : List (List Nat)) (ranksL : List (Nat × Nat)) (target : Nat) :
    ∀ (pending : List (List Nat)) (acc res : List Prediction),
      (∀ c ∈ pending, c.length = 5 ∧ ∀ x ∈ c, 1 ≤ x ∧ x ≤ 42) →
      (∀ p ∈ acc, GoodCombo p.combination) →
      phaseA hist ranksL target pending acc = some res →
      ∀ p ∈ res, GoodCombo p.combination := by
  intro pending
  induction pending with
  | nil =>
    intro acc res _ hacc hres
    rw [phaseA] at hres
    exact (Option.some.inj hres) ▸ hacc
  | cons c rest ih =>
    intro acc res hpend hacc hres
    rw [phaseA] at hres
    split at hres
    · exact absurd hres (by simp)
    · exact ih acc res (fun c' hc' => hpend c' (List.mem_cons_of_mem _ hc')) hacc hres
    · have hgood : GoodCombo (pySorted c) := by
        obtain ⟨hlen, hmem⟩ := hpend c (List.mem_cons_self _ _)
        refine ⟨by rw [pySorted_length, hlen], pySorted_sorted c, ?_⟩
        intro x hx
        exact hmem x (pySorted_mem hx)
      have hacc' : ∀ p ∈ acc ++ [mkPrediction (pySorted c) ranksL],
          GoodCombo p.combination := by
        intro p hp
        rcases List.mem_append.mp hp with hp | hp
        · exact hacc p hp
        · rw [List.mem_singleton] at hp
          rw [hp]
          exact hgood
      split at hres
      · exact (Option.some.inj hres) ▸ hacc'
      · exact ih _ res (fun c' hc' => hpend c' (List.mem_cons_of_mem _ hc')) hacc' hres

lemma phaseB_good (hist : List (List Nat)) (ranksL : List (Nat × Nat)) (pool : List Nat)
    (σ : Nat → Nat) (target : Nat) (hpool : ∀ x ∈ pool, 1 ≤ x ∧ x ≤ 42) :
    ∀ (fuel c : Nat) (checked : List (List Nat)) (acc res : List Prediction),
      (∀ p ∈ acc, GoodCombo p.combination) →
      phaseB hist ranksL pool σ target fuel c checked acc = some res →
      ∀ p ∈ res, GoodCombo p.combination := by
  intro fuel
  induction fuel with
  | zero =>
    intro c checked acc res hacc hres
    rw [phaseB] at hres
    exact (Option.some.inj hres) ▸ hacc
  | succ fuel ih =>
    intro c checked acc res hacc hres
    rw [phaseB] at hres
    split_ifs at hres with h1 h2 h3
    · exact (Option.some.inj hres) ▸ hacc
    · exact ih _ _ _ res hacc hres
    · split at hres
      · exact absurd hres (by simp)
      · exact ih _ _ _ res hacc hres
      · refine ih _ _ _ res ?_ hres
        intro p hp
        rcases List.mem_append.mp hp with hp | hp
        · exact hacc p hp
        · rw [List.mem_singleton] at hp
          rw [hp]
          have hk : (5 : Nat) ≤ pool.length := by omega
          have hgood : GoodCombo (pySorted (sampleK σ 5 pool c)) := by
            refine ⟨?_, pySorted_sorted _, ?_⟩
            · rw [pySorted_length]
              exact (sampleK_length_mem σ 5 pool c hk).1
            · intro x hx
              exact hpool x ((sampleK_length_mem σ 5 pool c hk).2 x (pySorted_mem hx))
          exact hgood

/-- C2 (amended): every combination in the sequence the generator returns
consists of exactly 5 integers from [1,42] in (weakly) ascending sorted
order.  Phase A's enumeration yields 5 distinct numbers, but Phase B draws
positions without replacement from a pool holding several copies of each
number, so a returned combination may repeat a value: distinctness is not
guaranteed. -/
theorem c2_amended_returned_combinations_shape (hist recentDraws : List (List Nat))
    (count : Nat) (σ : Nat → Nat) (l : List Prediction)
    (h : generate_predictions hist recentDraws count σ = some l) :
    ∀ p ∈ l, p.combination.length = 5 ∧
      p.combination.Pairwise (fun a b => a ≤ b) ∧
      ∀ x ∈ p.combination, 1 ≤ x ∧ x ≤ 42 := by
  unfold generate_predictions at h
  rw [Option.bind_eq_some] at h
  obtain ⟨ranksL, hrank, h⟩ := h
  rw [Option.bind_eq_some] at h
  obtain ⟨accA, hA, h⟩ := h
  rw [Option.map_eq_some'] at h
  obtain ⟨acc, hacc, hl⟩ := h
  have hranksL : ranksL = ranksList (get_rank_frequency recentDraws) := by
    rw [rank_numbers_freqItems] at hrank
    exact (Option.some.inj hrank).symm
  have hmf : ∀ x ∈ ((sortBySndAsc ranksL).take 15).map (fun p => p.1),
      1 ≤ x ∧ x ≤ 42 := by
    intro x hx
    obtain ⟨q, hq, rfl⟩ := List.mem_map.mp hx
    have hq2 : q ∈ sortBySndAsc ranksL := List.mem_of_mem_take hq
    have hq3 : q ∈ ranksL := (List.perm_insertionSort rankLE ranksL).mem_iff.mp hq2
    rw [hranksL] at hq3
    exact ranksList_keys hq3
  have hgoodA : ∀ p ∈ accA, GoodCombo p.combination := by
    refine phaseA_good hist ranksL (count * 2) _ [] accA ?_ (by simp) hA
    intro c hc
    obtain ⟨hlen, hsub⟩ := combosOf_mem hc
    exact ⟨hlen, fun x hx => hmf x (hsub x hx)⟩
  have hgoodAcc : ∀ p ∈ acc, GoodCombo p.combination := by
    split_ifs at hacc with hcount
    · exact phaseB_good hist ranksL _ σ (count * 2)
        (fun x hx => weightedPool_mem hx) 10000 0 _ accA acc hgoodA hacc
    · exact (Option.some.inj hacc) ▸ hgoodA
  intro p hp
  rw [← hl] at hp
  have hp2 : p ∈ sortByScoreDesc acc := List.mem_of_mem_take hp
  have hp3 : p ∈ acc := (List.perm_insertionSort scoreGE acc).mem_iff.mp hp2
  exact hgoodAcc p hp3

/-- A concrete random index stream: two Phase B attempts drawing
`[12,12,23,31,40]` and then `[12,12,25,31,40]` from the all-weight-10 pool
(each number 1..42 contributes ten consecutive copies), then zeros. -/
def sigma0 : Nat → Nat :=
  fun c => [110, 110, 218, 297, 386, 110, 110, 238, 297, 386].getD c 0

/-- The rank table of the all-zero frequency table (an empty 30-day
window). -/
def rl0 : List (Nat × Nat) :=
  (rank_numbers (freqItems (get_rank_frequency []))).getD []

lemma h_rank0 : rank_numbers (freqItems (get_rank_frequency [])) = some rl0 := by
  decide

/-- First Phase B survivor of the concrete run: a combination with a
repeated value. -/
def pA : Prediction := mkPrediction [12,12,23,31,40] rl0

/-- Second Phase B survivor of the concrete run. -/
def pC : Prediction := mkPrediction [12,12,25,31,40] rl0

set_option maxHeartbeats 4000000 in
set_option maxRecDepth 40000 in
lemma h_phaseA : phaseA [[1,2,3,4,5]] rl0 (1 * 2)
    (combosOf 5 (((sortBySndAsc rl0).take 15).map (fun p => p.1))) [] = some [] := by
  decide

set_option maxHeartbeats 4000000 in
set_option maxRecDepth 40000 in
lemma h_phaseA_empty : phaseA [] rl0 (1 * 2)
    (combosOf 5 (((sortBySndAsc rl0).take 15).map (fun p => p.1))) [] = some [] := by
  decide

set_option maxHeartbeats 4000000 in
set_option maxRecDepth 40000 in
lemma h_phaseB : phaseB [[1,2,3,4,5]] rl0 (weightedPool (get_rank_frequency [])) sigma0
    (1 * 2) 10000 0 [] [] = some [pA, pC] := by
  rfl

set_option maxHeartbeats 4000000 in
set_option maxRecDepth 40000 in
lemma h_phaseB_empty : phaseB [] rl0 (weightedPool (get_rank_frequency [])) sigma0
    (1 * 2) 10000 0 [] [] = none := by
  decide

lemma h_scoreCA : scoreGE pA pC := by
  have hrsA : (([12,12,23,31,40] : List Nat).map (rankOf rl0)).sum = 16 := by decide
  have hrsC : (([12,12,25,31,40] : List Nat).map (rankOf rl0)).sum = 17 := by decide
  have hdA : calculate_decade_distribution [12,12,23,31,40] = (0, 2, 1, 1, 1) := by decide
  have hdC : calculate_decade_distribution [12,12,25,31,40] = (0, 2, 1, 1, 1) := by decide
  have heA : even_count [12,12,23,31,40] = 3 := by decide
  have heC : even_count [12,12,25,31,40] = 3 := by decide
  have hsA : ([12,12,23,31,40] : List Nat).sum = 118 := by decide
  have hsC : ([12,12,25,31,40] : List Nat).sum = 120 := by decide
  show calculate_score [12,12,25,31,40] (calculate_stats [12,12,25,31,40]) (rankOf rl0) ≤
    calculate_score [12,12,23,31,40] (calculate_stats [12,12,23,31,40]) (rankOf rl0)
  simp only [calculate_score]
  rw [hrsA, hrsC, hdA, hdC, heA, heC, hsA, hsC]
  norm_num [nums_per_draw, abs_eq_max_neg, max_def, min_def]

/-- The concrete generator run behind the C2 and C7 instances: one-draw
history `[[1,2,3,4,5]]`, empty 30-day window, `count = 1`, stream
`sigma0`.  Phase A rejects all 3003 candidates (every 5-subset of 1..15
overfills a decade band), Phase B accepts the two sampled combinations, and
the higher-scoring one — which repeats the value 12 — is returned. -/
lemma gen_concrete : generate_predictions [[1,2,3,4,5]] [] 1 sigma0 = some [pA] := by
  simp only [generate_predictions]
  rw [h_rank0]
  simp only [Option.some_bind]
  rw [h_phaseA]
  simp only [Option.some_bind, List.length_nil, List.map_nil]
  rw [if_pos Nat.zero_lt_one, h_phaseB]
  simp only [Option.map_some', Option.some.injEq]
  unfold sortByScoreDesc
  simp only [List.insertionSort, List.orderedInsert]
  rw [if_pos h_scoreCA]
  rfl

/-- C2 counterexample: with history `[[1,2,3,4,5]]`, an empty 30-day window,
`count = 1` and the stream `sigma0`, the generator's returned sequence is
the single combination `[12,12,23,31,40]` — produced by Phase B's weighted
sampling — which does not consist of 5 distinct integers. -/
theorem c2_counterexample :
    Option.map (fun l => l.map (fun p => p.combination))
      (generate_predictions [[1,2,3,4,5]] [] 1 sigma0) = some [[12,12,23,31,40]] ∧
    ¬ ([12,12,23,31,40] : List Nat).Nodup := by
  refine ⟨?_, by decide⟩
  rw [gen_concrete]
  rfl

/-- C2 witness: the shape facts of the amended claim at the concrete run's
returned record. -/
theorem c2_witness :
    pA.combination.length = 5 ∧ pA.combination.Pairwise (fun a b => a ≤ b) ∧
    ∀ x ∈ pA.combination, 1 ≤ x ∧ x ≤ 42 :=
  c2_amended_returned_combinations_shape [[1,2,3,4,5]] [] 1 sigma0 [pA] gen_concrete
    pA (List.mem_singleton_self pA)

/-- C7 counterexample: with an empty draw history the generator does not
return a (short) result list: the filter's `dup_counts[0]` access raises
`IndexError` during the first Phase B attempt, and the run aborts. -/
theorem c7_counterexample : generate_predictions [] [] 1 sigma0 = none := by
  simp only [generate_predictions]
  rw [h_rank0]
  simp only [Option.some_bind]
  rw [h_phaseA_empty]
  simp only [Option.some_bind, List.length_nil, List.map_nil]
  rw [if_pos Nat.zero_lt_one, h_phaseB_empty]
  rfl

/-- C7 witness: the bounded-and-sorted facts at the concrete run. -/
theorem c7_witness :
    ([pA] : List Prediction).length ≤ 1 ∧ ([pA] : List Prediction).Pairwise scoreGE :=
  c7_amended_bounded_sorted_output [[1,2,3,4,5]] [] 1 sigma0 [pA] gen_concrete

end Fantasy5
